import Mathlib

/-!
Shallow embedding of the fdds-rag inference pipeline
(`src/fdds/inference.py`, `src/chat.py`), together with models of the
external collaborators it composes (query compressor, vector search,
reranker, streaming generator).  External calls are represented by
oracle inputs: the pipeline is a pure function of the conversation and
of the responses the external services would return.
-/

namespace FddsRag

/-- A chat message: one entry of the `ChatFormat` list (`{"role": ..., "content": ...}`). -/
structure Message where
  role : String
  content : String
deriving Repr, DecidableEq

/-- A retrieved element as used by `prepare_context`: `text_representation`,
`document_meta.source.url` and `location.page_number` flattened into one record. -/
structure Passage where
  text_representation : String
  sourceURL : String
  page_number : Nat
deriving Repr, DecidableEq

/-- `prepare_context` (src/fdds/inference.py lines 119-125): format one retrieved
element together with its source url and page number. -/
def prepare_context (context : Passage) : String :=
  context.text_representation ++ " (source: " ++ context.sourceURL ++
    ", page: " ++ toString context.page_number ++ ")"

/-! ### Query compressor -/

/-- Result of the query compressor: the standalone query, plus whether a
language-model call was made to produce it. -/
structure Compressed where
  query : String
  modelCalled : Bool
deriving Repr, DecidableEq

/-- Modelled from the spec: `StandaloneMessageCompressor` is imported from the
ragbits library and its code is not under src/.  Per spec section 4.1, with an
empty history (a one-message conversation) the compressor short-circuits and
returns the new message's content verbatim with no model call; with a non-empty
history it invokes the language model (outcome given by the oracle
`modelOutcome`) and a failing model call surfaces as an error rather than
a silent fallback to the raw message. -/
def compress (modelOutcome : Except Unit String) (conv : List Message) :
    Except Unit Compressed :=
  match conv with
  | [] => .error ()
  | [m] => .ok ⟨m.content, false⟩
  | _ => modelOutcome.map (fun s => ⟨s, true⟩)

/-! ### Retrieval and reranking -/

/-- A retrieved passage annotated with its original vector-similarity rank
(position in the vector-store response, 0-based) and its reranked relevance
score (`none` models an unparseable / minus-infinity score). -/
structure Ranked where
  rank : Nat
  passage : Passage
  score : Option Int
deriving Repr, DecidableEq

/-- Strict order on optional scores with `none` as minus infinity. -/
def scoreLtB : Option Int → Option Int → Bool
  | _, none => false
  | none, some _ => true
  | some x, some y => x < y

/-- Boolean comparison used to sort reranked entries: descending reranked
score, ties broken by ascending original vector rank. -/
def rerankLEb (a b : Ranked) : Bool :=
  scoreLtB b.score a.score || (decide (a.score = b.score) && decide (a.rank ≤ b.rank))

/-- `a` may precede `b` in the reranked output: `a`'s score is strictly
higher, or the scores are equal and `a`'s original vector rank is not larger. -/
def RerankPrecedes (a b : Ranked) : Prop :=
  scoreLtB b.score a.score = true ∨ (a.score = b.score ∧ a.rank ≤ b.rank)

/-- Attach original vector ranks (starting at `i`) and reranker scores to the
vector-store candidates; candidates beyond the score list get score `none`. -/
def annotate (cands : List Passage) (scores : List (Option Int)) (i : Nat) :
    List Ranked :=
  match cands, scores with
  | [], _ => []
  | p :: ps, [] => ⟨i, p, none⟩ :: annotate ps [] (i + 1)
  | p :: ps, s :: ss => ⟨i, p, s⟩ :: annotate ps ss (i + 1)

/-- Modelled from the spec: the `DocumentSearch(vector_store, reranker).search`
call of src/fdds/inference.py line 181 combines the ragbits document search with
`fdds.reranker.LLMReranker`, whose code is not under src/.  Per spec sections
4.2, 4.3 and 7: the vector store returns the candidates in vector-similarity
order; the reranker scores them (unparseable scores count as minus infinity),
the candidates are stably sorted by descending score and truncated to `top_n`;
if the reranker call fails the failure is recovered locally by falling back to
the `top_n` best candidates in vector-similarity order. -/
def documentSearch (cands : List Passage) (outcome : Except Unit (List (Option Int)))
    (top_n : Nat) : List Ranked :=
  match outcome with
  | .error _ => (annotate cands [] 0).take top_n
  | .ok scores => ((annotate cands scores 0).mergeSort rerankLEb).take top_n

/-- `get_contexts` (src/fdds/inference.py lines 128-191): run the document
search, return the formatted context strings and the set of unique source urls
(the Python `set` is modelled as a deduplicated list). -/
def get_contexts (cands : List Passage) (outcome : Except Unit (List (Option Int)))
    (top_n : Nat) : List String × List String :=
  let contexts := documentSearch cands outcome top_n
  (contexts.map (fun c => prepare_context c.passage),
   (contexts.map (fun c => c.passage.sourceURL)).dedup)

/-! ### Prompt assembly -/

/-- The fixed system instruction of `RAGPrompt` (src/fdds/inference.py lines 61-69). -/
def ragPromptSystem : String :=
  "\n    You are a helpful assistant.\n    Answer the QUESTION that will be provided using CONTEXT.\n    If the QUESTION asks where something is located,\n    if possible, try to provide the file url.\n\n    DO NOT INFORM THAT INFORMATION IS PROVIDED IN CONTEXT!\n    If in the given CONTEXT there is not enough information refuse to answer.\n    "

/-- Rendering of the `{% for item in context %}` loop body of the `RAGPrompt`
user template: each context item surrounded by the template's literal text. -/
def renderItems : List String → String
  | [] => ""
  | it :: rest => "\n        " ++ it ++ "\n    " ++ renderItems rest

/-- Rendering of the `RAGPrompt` user template (src/fdds/inference.py lines
71-79) on a query and context list. -/
def ragPromptUser (query : String) (context : List String) : String :=
  "\n    QUESTION:\n    " ++ query ++ "\n\n    CONTEXT:\n    " ++
    renderItems context ++ "\n    "

/-- The assembled generation request: system instruction plus rendered user block. -/
structure GenRequest where
  system : String
  user : String
deriving Repr, DecidableEq

/-- `RAGPrompt(QueryWithContext(query=query, context=context))` as a request. -/
def ragPrompt (query : String) (context : List String) : GenRequest :=
  ⟨ragPromptSystem, ragPromptUser query context⟩

/-- `EmbedsInOrder parts s` says that the string `s` contains every string of
`parts` as a contiguous block, in exactly the order of `parts`, with none
dropped: `s` decomposes as filler, the first part, filler, the second part,
and so on. -/
inductive EmbedsInOrder : List String → String → Prop where
  | nil (s : String) : EmbedsInOrder [] s
  | cons (p : String) (ps : List String) (pre rest : String)
      (h : EmbedsInOrder ps rest) : EmbedsInOrder (p :: ps) (pre ++ (p ++ rest))

/-! ### Pipeline -/

/-- The citation block of src/fdds/inference.py lines 216-220. -/
def sources_str (sources : List String) : String :=
  "\n\nPowiązane materiały: \n" ++
    String.intercalate "\n" (sources.map (fun source => "- " ++ source))

/-- Oracle inputs standing for the pipeline's external calls: the outcome of
the compression model call, the vector-store response, the reranker response
and the chunks of a completed generator stream. -/
structure Oracles where
  compressModel : Except Unit String
  candidates : List Passage
  rerank : Except Unit (List (Option Int))
  genChunks : List String
deriving Repr

/-- Failures that abort a pipeline invocation. -/
inductive PipeError where
  | compressionFailure
deriving Repr, DecidableEq

/-- Observable result of one completed pipeline invocation. -/
structure InferenceOutput where
  queryUsed : String
  compressorModelCalled : Bool
  request : GenRequest
  chunks : List String
deriving Repr, DecidableEq

/-- `inference` (src/fdds/inference.py lines 194-220): compress the
conversation to a standalone query, retrieve contexts and sources, assemble the
`RAGPrompt`, stream the generator's chunks, then append the citation block as
one final chunk exactly when the source set is non-empty. -/
def inference (o : Oracles) (query_with_history : List Message)
    (top_k top_n : Nat) : Except PipeError InferenceOutput :=
  match compress o.compressModel query_with_history with
  | .error _ => .error .compressionFailure
  | .ok c =>
    let _ := top_k
    let res := get_contexts o.candidates o.rerank top_n
    let context := res.1
    let sources := res.2
    .ok
      { queryUsed := c.query
        compressorModelCalled := c.modelCalled
        request := ragPrompt c.query context
        chunks :=
          o.genChunks ++ (if sources = [] then [] else [sources_str sources]) }

/-! ### Entry points -/

/-- The conversation built by `MyChat.chat` (src/chat.py lines 53-61):
`[*history, {"role": "user", "content": message}]`. -/
def chatConversation (history : List Message) (message : String) : List Message :=
  history ++ [⟨"user", message⟩]

/-- Usage text printed by `parse_query` when no query is given. -/
def usageMessage : String := "Usage: uv run inference.py \"<Your query here>\""

/-- Outcome of `parse_query`: either process exit with a usage message and an
exit code, or a parsed conversation. -/
inductive ParseOutcome where
  | exit (msg : String) (code : Nat)
  | conv (conversation : List Message)
deriving Repr, DecidableEq

/-- `parse_query` (src/fdds/inference.py lines 223-242): with fewer than two
entries in `sys.argv`, print usage and exit with status 1; otherwise build a
one-message conversation from `sys.argv[1]`. -/
def parse_query (argv : List String) : ParseOutcome :=
  if argv.length < 2 then .exit usageMessage 1
  else .conv [⟨"user", argv.getD 1 ""⟩]

/-! ### Lemmas about the rerank comparison -/

theorem rerankLEb_iff (a b : Ranked) : rerankLEb a b = true ↔ RerankPrecedes a b := by
  simp [rerankLEb, RerankPrecedes, Bool.or_eq_true, Bool.and_eq_true,
    decide_eq_true_eq]

theorem rerankLEb_trans (a b c : Ranked) (h1 : rerankLEb a b) (h2 : rerankLEb b c) :
    rerankLEb a c := by
  obtain ⟨ra, pa, sa⟩ := a
  obtain ⟨rb, pb, sb⟩ := b
  obtain ⟨rc, pc, sc⟩ := c
  cases sa <;> cases sb <;> cases sc <;>
    simp_all [rerankLEb, scoreLtB] <;> omega

theorem rerankLEb_total (a b : Ranked) : rerankLEb a b || rerankLEb b a := by
  obtain ⟨ra, pa, sa⟩ := a
  obtain ⟨rb, pb, sb⟩ := b
  cases sa <;> cases sb <;>
    simp_all [rerankLEb, scoreLtB] <;> omega

/-! ### Lemmas about rank and score assignment -/

theorem annotate_map_passage (cands : List Passage) (scores : List (Option Int))
    (i : Nat) : (annotate cands scores i).map (fun c => c.passage) = cands := by
  induction cands generalizing scores i with
  | nil => simp [annotate]
  | cons p ps ih =>
    cases scores with
    | nil => simp [annotate, ih]
    | cons s ss => simp [annotate, ih]

theorem mem_annotate (cands : List Passage) (scores : List (Option Int)) (i : Nat)
    (c : Ranked) (hc : c ∈ annotate cands scores i) :
    i ≤ c.rank ∧ cands[c.rank - i]? = some c.passage := by
  induction cands generalizing scores i with
  | nil => simp [annotate] at hc
  | cons p ps ih =>
    have step :
        ∀ s rest, c = ⟨i, p, s⟩ ∨ c ∈ annotate ps rest (i + 1) →
          i ≤ c.rank ∧ (p :: ps)[c.rank - i]? = some c.passage := by
      intro s rest h
      rcases h with rfl | h
      · simp
      · obtain ⟨h1, h2⟩ := ih rest (i + 1) h
        refine ⟨by omega, ?_⟩
        have hsub : c.rank - i = (c.rank - (i + 1)) + 1 := by omega
        rw [hsub, List.getElem?_cons_succ]
        exact h2
    cases scores with
    | nil =>
      simp only [annotate, List.mem_cons] at hc
      exact step none [] hc
    | cons s ss =>
      simp only [annotate, List.mem_cons] at hc
      exact step s ss hc

theorem annotate_rank_ascending (cands : List Passage) (scores : List (Option Int))
    (i : Nat) : (annotate cands scores i).Pairwise (fun a b => a.rank < b.rank) := by
  induction cands generalizing scores i with
  | nil => simp [annotate]
  | cons p ps ih =>
    have step : ∀ s rest,
        ((⟨i, p, s⟩ : Ranked) :: annotate ps rest (i + 1)).Pairwise
          (fun a b => a.rank < b.rank) := by
      intro s rest
      refine List.Pairwise.cons ?_ (ih rest (i + 1))
      intro b hb
      have hbr := (mem_annotate ps rest (i + 1) b hb).1
      simpa using by omega
    cases scores with
    | nil => simpa [annotate] using step none []
    | cons s ss => simpa [annotate] using step s ss

theorem annotate_nil_score (cands : List Passage) (i : Nat) (c : Ranked)
    (hc : c ∈ annotate cands [] i) : c.score = none := by
  induction cands generalizing i with
  | nil => simp [annotate] at hc
  | cons p ps ih =>
    simp only [annotate, List.mem_cons] at hc
    rcases hc with rfl | hc
    · rfl
    · exact ih (i + 1) hc

/-! ### Lemmas about the document search -/

theorem documentSearch_length (cands : List Passage)
    (outcome : Except Unit (List (Option Int))) (n : Nat) :
    (documentSearch cands outcome n).length ≤ n := by
  cases outcome <;> simp [documentSearch, List.length_take]

theorem documentSearch_sorted (cands : List Passage)
    (outcome : Except Unit (List (Option Int))) (n : Nat) :
    (documentSearch cands outcome n).Pairwise RerankPrecedes := by
  cases outcome with
  | error u =>
    apply List.Pairwise.sublist (List.take_sublist _ _)
    have hr := annotate_rank_ascending cands [] 0
    refine hr.imp_of_mem ?_
    intro a b ha hb hab
    have hsa := annotate_nil_score cands 0 a ha
    have hsb := annotate_nil_score cands 0 b hb
    exact Or.inr ⟨by rw [hsa, hsb], Nat.le_of_lt hab⟩
  | ok scores =>
    apply List.Pairwise.sublist (List.take_sublist _ _)
    have h := List.sorted_mergeSort rerankLEb_trans rerankLEb_total
      (annotate cands scores 0)
    exact h.imp (fun hab => (rerankLEb_iff _ _).mp hab)

theorem documentSearch_mem (cands : List Passage)
    (outcome : Except Unit (List (Option Int))) (n : Nat) (c : Ranked)
    (hc : c ∈ documentSearch cands outcome n) :
    cands[c.rank]? = some c.passage := by
  cases outcome with
  | error u =>
    have hmem := List.take_subset _ _ hc
    simpa using (mem_annotate cands [] 0 c hmem).2
  | ok scores =>
    have hmem := List.mem_mergeSort.mp (List.take_subset _ _ hc)
    simpa using (mem_annotate cands scores 0 c hmem).2

theorem documentSearch_error (cands : List Passage) (u : Unit) (n : Nat) :
    (documentSearch cands (.error u) n).map (fun c => c.passage) = cands.take n := by
  simp [documentSearch, List.map_take, annotate_map_passage]

theorem documentSearch_nil (outcome : Except Unit (List (Option Int))) (n : Nat) :
    documentSearch [] outcome n = [] := by
  cases outcome <;> simp [documentSearch, annotate]

/-! ### Lemmas about prompt rendering -/

theorem EmbedsInOrder.cons_of_eq {p : String} {ps : List String} {s : String}
    (pre rest : String) (heq : s = pre ++ (p ++ rest)) (hr : EmbedsInOrder ps rest) :
    EmbedsInOrder (p :: ps) s := by
  subst heq
  exact .cons p ps pre rest hr

theorem embeds_renderItems (items : List String) (h t : String) :
    EmbedsInOrder items (h ++ renderItems items ++ t) := by
  induction items generalizing h with
  | nil => exact .nil _
  | cons it rest ih =>
    refine EmbedsInOrder.cons_of_eq (h ++ "\n        ")
      ("\n    " ++ renderItems rest ++ t) ?_ (ih "\n    ")
    simp [renderItems, String.append_assoc]

theorem embeds_ragPromptUser (q : String) (texts : List String) :
    EmbedsInOrder (q :: texts) (ragPromptUser q texts) := by
  refine EmbedsInOrder.cons_of_eq "\n    QUESTION:\n    "
    ("\n\n    CONTEXT:\n    " ++ renderItems texts ++ "\n    ") ?_
    (embeds_renderItems texts "\n\n    CONTEXT:\n    " "\n    ")
  simp [ragPromptUser, String.append_assoc]

/-! ### Claim theorems -/

/-- C1: for every pipeline invocation in which the generator stream completes,
the output chunk sequence is all generator-produced chunks in emission order,
followed by at most one citation chunk: the formatted source set is appended
exactly once as the final chunk when the source set is non-empty and omitted
entirely when it is empty. -/
theorem c1_stream_shape (o : Oracles) (conv : List Message) (tk tn : Nat)
    (out : InferenceOutput) (hok : inference o conv tk tn = .ok out) :
    ((get_contexts o.candidates o.rerank tn).2 = [] → out.chunks = o.genChunks) ∧
    ((get_contexts o.candidates o.rerank tn).2 ≠ [] →
      out.chunks =
        o.genChunks ++ [sources_str (get_contexts o.candidates o.rerank tn).2]) := by
  unfold inference at hok
  cases hcomp : compress o.compressModel conv with
  | error e => rw [hcomp] at hok; cases hok
  | ok c =>
    rw [hcomp] at hok
    simp only [Except.ok.injEq] at hok
    subst hok
    constructor
    · intro h; simp [h]
    · intro h; simp [h]

/-- C2: for every retrieval invocation with `top_n ≤ top_k` and at most
`top_k` vector-store candidates, the returned context set has length at most
`top_n`, is sorted by descending reranked score with ties broken by ascending
original vector-similarity rank, and each returned entry is the candidate at
its recorded vector rank; `get_contexts` returns exactly its formatting. -/
theorem c2_context_order (cands : List Passage)
    (outcome : Except Unit (List (Option Int))) (top_k top_n : Nat)
    (_h1 : top_n ≤ top_k) (_h2 : cands.length ≤ top_k) :
    (documentSearch cands outcome top_n).length ≤ top_n ∧
    (documentSearch cands outcome top_n).Pairwise RerankPrecedes ∧
    (∀ c ∈ documentSearch cands outcome top_n, cands[c.rank]? = some c.passage) ∧
    (get_contexts cands outcome top_n).1 =
      (documentSearch cands outcome top_n).map (fun c => prepare_context c.passage) :=
  ⟨documentSearch_length cands outcome top_n,
   documentSearch_sorted cands outcome top_n,
   fun c hc => documentSearch_mem cands outcome top_n c hc,
   rfl⟩

/-- C3: the source set used to build the citation block is derived from the
final context set of the same invocation and from nothing else: it is the
deduplication of the source urls of the context set, contains no duplicates,
and contains a url exactly when some retrieved context carries it. -/
theorem c3_sources_derived (cands : List Passage)
    (outcome : Except Unit (List (Option Int))) (top_n : Nat) :
    (get_contexts cands outcome top_n).2 =
      ((documentSearch cands outcome top_n).map (fun c => c.passage.sourceURL)).dedup ∧
    (get_contexts cands outcome top_n).2.Nodup ∧
    ∀ url, url ∈ (get_contexts cands outcome top_n).2 ↔
      ∃ c ∈ documentSearch cands outcome top_n, c.passage.sourceURL = url := by
  refine ⟨rfl, List.nodup_dedup _, fun url => ?_⟩
  simp [get_contexts, List.mem_dedup, List.mem_map]

/-- C4: when the reranker's scoring call fails, the failure is recovered
locally: the invocation still completes successfully, and the context set
equals the `top_n` highest vector-similarity candidates in vector order. -/
theorem c4_rerank_fallback (o : Oracles) (conv : List Message) (tk tn : Nat)
    (c : Compressed) (u : Unit) (hre : o.rerank = .error u)
    (hc : compress o.compressModel conv = .ok c) :
    (∃ out, inference o conv tk tn = .ok out) ∧
    (documentSearch o.candidates o.rerank tn).map (fun r => r.passage) =
      o.candidates.take tn := by
  constructor
  · unfold inference
    rw [hc]
    exact ⟨_, rfl⟩
  · rw [hre]
    exact documentSearch_error o.candidates u tn

/-- C5: when vector retrieval returns zero candidates, the context set and the
source set are empty, the generator is still invoked on a prompt assembled
with the empty context, the invocation completes as a success with exactly the
generator's chunks, and no citation block is emitted. -/
theorem c5_empty_retrieval (o : Oracles) (conv : List Message) (tk tn : Nat)
    (c : Compressed) (hcand : o.candidates = [])
    (hc : compress o.compressModel conv = .ok c) :
    inference o conv tk tn =
      .ok { queryUsed := c.query, compressorModelCalled := c.modelCalled,
            request := ragPrompt c.query [], chunks := o.genChunks } ∧
    (get_contexts o.candidates o.rerank tn).1 = [] ∧
    (get_contexts o.candidates o.rerank tn).2 = [] := by
  have hds : documentSearch o.candidates o.rerank tn = [] := by
    rw [hcand]
    exact documentSearch_nil o.rerank tn
  have hgc : get_contexts o.candidates o.rerank tn = ([], []) := by
    simp [get_contexts, hds]
  refine ⟨?_, by simp [hgc], by simp [hgc]⟩
  unfold inference
  rw [hc]
  simp [hgc]

/-- C6: when the query-compression model call fails (so the history is
non-empty and the model was consulted), the invocation aborts with a
compression failure and never produces a successful stream: the raw message is
never silently substituted as the retrieval query. -/
theorem c6_compression_failure_aborts (o : Oracles) (conv : List Message)
    (tk tn : Nat) (hlen : 2 ≤ conv.length) (hm : o.compressModel = .error ()) :
    inference o conv tk tn = .error .compressionFailure ∧
    ∀ out, inference o conv tk tn ≠ .ok out := by
  have hcomp : compress o.compressModel conv = .error () := by
    cases conv with
    | nil => simp at hlen
    | cons m1 tail =>
      cases tail with
      | nil => simp at hlen
      | cons m2 rest => simp [compress, hm, Except.map]
  have hinf : inference o conv tk tn = .error .compressionFailure := by
    unfold inference
    rw [hcomp]
  exact ⟨hinf, fun out h => by rw [hinf] at h; cases h⟩

/-- C7: the assembled generation request has the fixed system instruction, and
a user block that embeds the query and every passage of the context set in
exactly context-set order with none dropped; each passage's text is formatted
together with its source url and page number. -/
theorem c7_prompt_assembly (query : String) (cands : List Passage)
    (outcome : Except Unit (List (Option Int))) (top_n : Nat) :
    (get_contexts cands outcome top_n).1 =
      (documentSearch cands outcome top_n).map (fun c => prepare_context c.passage) ∧
    (ragPrompt query (get_contexts cands outcome top_n).1).system = ragPromptSystem ∧
    EmbedsInOrder (query :: (get_contexts cands outcome top_n).1)
      (ragPrompt query (get_contexts cands outcome top_n).1).user ∧
    ∀ c ∈ documentSearch cands outcome top_n,
      prepare_context c.passage =
        (c.passage.text_representation ++ " (source: ") ++
          (c.passage.sourceURL ++
            (", page: " ++ (toString c.passage.page_number ++ ")"))) := by
  refine ⟨rfl, rfl, embeds_ragPromptUser query _, fun c _ => ?_⟩
  simp [prepare_context, String.append_assoc]

/-- C8: on a single-message conversation (empty history) the query compressor
returns the message's content verbatim with no language-model call, and the
invocation uses that content as the retrieval query. -/
theorem c8_single_message_short_circuit (o : Oracles) (m : Message)
    (tk tn : Nat) (out : InferenceOutput)
    (hok : inference o [m] tk tn = .ok out) :
    compress o.compressModel [m] = .ok ⟨m.content, false⟩ ∧
    out.queryUsed = m.content ∧ out.compressorModelCalled = false := by
  have hcomp : compress o.compressModel [m] = .ok ⟨m.content, false⟩ := rfl
  refine ⟨hcomp, ?_⟩
  unfold inference at hok
  rw [hcomp] at hok
  simp only [Except.ok.injEq] at hok
  subst hok
  exact ⟨rfl, rfl⟩

/-- C9: the chat operation builds a fresh conversation list from the
caller-supplied history plus the new user message: the history is an unchanged
prefix, every history entry is reachable unmodified at its original position,
and exactly one message is appended. -/
theorem c9_history_not_mutated (history : List Message) (message : String) :
    chatConversation history message = history ++ [⟨"user", message⟩] ∧
    (chatConversation history message).take history.length = history ∧
    (∀ i, i < history.length →
      (chatConversation history message)[i]? = history[i]?) ∧
    (chatConversation history message).length = history.length + 1 := by
  refine ⟨rfl, ?_, ?_, by simp [chatConversation]⟩
  · exact List.take_left history [⟨"user", message⟩]
  · intro i hi
    exact List.getElem?_append_left hi

/-- C10: with fewer than two command-line entries, `parse_query` reports the
usage message and exit status 1; otherwise it returns a single-message
conversation with role "user" and the first command-line argument as content. -/
theorem c10_parse_query (argv : List String) :
    (argv.length < 2 → parse_query argv = .exit usageMessage 1) ∧
    (∀ prog arg rest, argv = prog :: arg :: rest →
      parse_query argv = .conv [⟨"user", arg⟩]) := by
  constructor
  · intro h
    simp [parse_query, h]
  · rintro prog arg rest rfl
    have hn : ¬ (prog :: arg :: rest).length < 2 := by simp
    simp [parse_query, hn]

/-! ### Witnesses: the claim theorems applied at concrete inputs -/

/-- Witness for C1 at a one-candidate retrieval with a non-empty source set. -/
theorem c1_stream_shape_witness :
    inference ⟨.ok "std", [⟨"t", "u", 3⟩], .error (), ["a", "b"]⟩
        [⟨"user", "hi"⟩] 5 5 =
      .ok ⟨"hi", false, ragPrompt "hi" [prepare_context ⟨"t", "u", 3⟩],
        ["a", "b", sources_str ["u"]]⟩ ∧
    (⟨"hi", false, ragPrompt "hi" [prepare_context ⟨"t", "u", 3⟩],
        ["a", "b", sources_str ["u"]]⟩ : InferenceOutput).chunks =
      ["a", "b"] ++ [sources_str (get_contexts [⟨"t", "u", 3⟩] (.error ()) 5).2] :=
  ⟨rfl,
   (c1_stream_shape ⟨.ok "std", [⟨"t", "u", 3⟩], .error (), ["a", "b"]⟩
      [⟨"user", "hi"⟩] 5 5 _ rfl).2 (by decide)⟩

/-- Witness for C2 at two candidates with reranker scores reversing the order. -/
theorem c2_context_order_witness :
    2 ≤ 2 ∧ ([⟨"a", "u1", 1⟩, ⟨"b", "u2", 2⟩] : List Passage).length ≤ 2 ∧
    (documentSearch [⟨"a", "u1", 1⟩, ⟨"b", "u2", 2⟩]
      (.ok [some 1, some 5]) 2).Pairwise RerankPrecedes :=
  ⟨by decide, by decide,
   (c2_context_order [⟨"a", "u1", 1⟩, ⟨"b", "u2", 2⟩] (.ok [some 1, some 5])
      2 2 (by decide) (by decide)).2.1⟩

/-- Witness for C3 at two candidates sharing one source url. -/
theorem c3_sources_derived_witness :
    (get_contexts [⟨"a", "u", 1⟩, ⟨"b", "u", 2⟩] (.error ()) 5).2.Nodup :=
  (c3_sources_derived [⟨"a", "u", 1⟩, ⟨"b", "u", 2⟩] (.error ()) 5).2.1

/-- Witness for C4 at three candidates with a failed reranker call. -/
theorem c4_rerank_fallback_witness :
    (∃ out,
      inference ⟨.ok "q", [⟨"a", "u1", 1⟩, ⟨"b", "u2", 2⟩, ⟨"c", "u3", 3⟩],
          .error (), ["x"]⟩ [⟨"user", "m"⟩] 3 2 = .ok out) ∧
    (documentSearch [⟨"a", "u1", 1⟩, ⟨"b", "u2", 2⟩, ⟨"c", "u3", 3⟩]
        (.error ()) 2).map (fun r => r.passage) =
      [⟨"a", "u1", 1⟩, ⟨"b", "u2", 2⟩] :=
  c4_rerank_fallback ⟨.ok "q", [⟨"a", "u1", 1⟩, ⟨"b", "u2", 2⟩, ⟨"c", "u3", 3⟩],
    .error (), ["x"]⟩ [⟨"user", "m"⟩] 3 2 ⟨"m", false⟩ () rfl rfl

/-- Witness for C5 at an empty vector-store response. -/
theorem c5_empty_retrieval_witness :
    inference ⟨.ok "q", [], .ok [], ["g"]⟩ [⟨"user", "m"⟩] 5 5 =
      .ok ⟨"m", false, ragPrompt "m" [], ["g"]⟩ ∧
    (get_contexts [] (.ok []) 5).1 = [] ∧
    (get_contexts [] (.ok []) 5).2 = [] :=
  c5_empty_retrieval ⟨.ok "q", [], .ok [], ["g"]⟩ [⟨"user", "m"⟩] 5 5
    ⟨"m", false⟩ rfl rfl

/-- Witness for C6 at a three-message conversation with a failing model call. -/
theorem c6_compression_failure_aborts_witness :
    inference ⟨.error (), [], .ok [], []⟩
        [⟨"user", "a"⟩, ⟨"assistant", "b"⟩, ⟨"user", "c"⟩] 5 5 =
      .error .compressionFailure :=
  (c6_compression_failure_aborts ⟨.error (), [], .ok [], []⟩
    [⟨"user", "a"⟩, ⟨"assistant", "b"⟩, ⟨"user", "c"⟩] 5 5 (by decide) rfl).1

/-- Witness for C7 at a one-passage context set. -/
theorem c7_prompt_assembly_witness :
    EmbedsInOrder ("q" :: (get_contexts [⟨"t", "u", 7⟩] (.error ()) 3).1)
      (ragPrompt "q" (get_contexts [⟨"t", "u", 7⟩] (.error ()) 3).1).user :=
  (c7_prompt_assembly "q" [⟨"t", "u", 7⟩] (.error ()) 3).2.2.1

/-- Witness for C8 at a single-message conversation whose compression model
call would fail if it were made. -/
theorem c8_single_message_short_circuit_witness :
    compress (Except.error ()) [⟨"user", "hello"⟩] =
      .ok ⟨"hello", false⟩ ∧
    (⟨"hello", false, ragPrompt "hello" [], ["g"]⟩ : InferenceOutput).queryUsed =
      "hello" ∧
    (⟨"hello", false, ragPrompt "hello" [], ["g"]⟩
        : InferenceOutput).compressorModelCalled = false :=
  c8_single_message_short_circuit ⟨.error (), [], .error (), ["g"]⟩
    ⟨"user", "hello"⟩ 1 1 ⟨"hello", false, ragPrompt "hello" [], ["g"]⟩ rfl

/-- Witness for C9 at a two-message history. -/
theorem c9_history_not_mutated_witness :
    (chatConversation [⟨"user", "a"⟩, ⟨"assistant", "b"⟩] "c").take 2 =
      [⟨"user", "a"⟩, ⟨"assistant", "b"⟩] ∧
    (chatConversation [⟨"user", "a"⟩, ⟨"assistant", "b"⟩] "c")[1]? =
      ([⟨"user", "a"⟩, ⟨"assistant", "b"⟩] : List Message)[1]? :=
  ⟨(c9_history_not_mutated [⟨"user", "a"⟩, ⟨"assistant", "b"⟩] "c").2.1,
   (c9_history_not_mutated [⟨"user", "a"⟩, ⟨"assistant", "b"⟩] "c").2.2.1 1
     (by decide)⟩

/-- Witness for C10 at an empty and at a two-entry argument vector. -/
theorem c10_parse_query_witness :
    parse_query [] = .exit usageMessage 1 ∧
    parse_query ["prog", "hi"] = .conv [⟨"user", "hi"⟩] :=
  ⟨(c10_parse_query []).1 (by decide),
   (c10_parse_query ["prog", "hi"]).2 "prog" "hi" [] rfl⟩

end FddsRag
